import Mathlib

/-!
Verification development for the bulk icon-generation script.

The script is shallowly embedded below: slug normalization and the sitemap
filter are translated as pure functions over character lists and strings,
the checkpoint store as explicit state passing over a machine holding the
in-memory state and the durable file content, and the batch loop as a
recursive function that also emits a trace of observable events (adapter
invocations, checkpoint writes, delays).  External effects (network fetch,
the image provider, the filesystem writes of images) are supplied as
oracles, so every definition is executable.
-/

/-- Constant: sitemap location used by the fetcher. -/
def SITEMAP_URL : String := "https://www.bitcoin.com/sitemap-0.xml"

/-- Constant: path of the durable checkpoint file. -/
def SAVE_STATE_FILE : String := "generation_state.json"

/-- Constant: output directory for generated artifacts. -/
def OUTPUT_DIR : String := "generated_icons"

/-- Constant: language path markers excluded by the sitemap filter. -/
def EXCLUDED_LANGS : List String :=
  ["/de/", "/es/", "/fr/", "/it/", "/ru/", "/zh/", "/ja/"]

/-- Constant: path marker required by the sitemap filter. -/
def REQUIRED_PATH : String := "/get-started/"

/-- Index of the first occurrence of sep inside l, scanning left to right.
This mirrors the leftmost, non-overlapping search that the Python string
operations s.split(sep) and (sep in s) perform. -/
def findSub (sep : List Char) : List Char → Option Nat
  | [] => if sep.isEmpty then some 0 else none
  | c :: rest =>
    if sep.isPrefixOf (c :: rest) then some 0
    else (findSub sep rest).map (fun i => i + 1)

/-- Fuel-indexed splitting of l at every occurrence of sep, mirroring the
Python s.split(sep).  The fuel only serves to make the recursion
structural; fuel equal to the length of l is always sufficient because
each recursive step consumes at least one character when sep is
nonempty. -/
def pySplitFuel (sep : List Char) : Nat → List Char → List (List Char)
  | 0, l => [l]
  | Nat.succ fuel, l =>
    match findSub sep l with
    | none => [l]
    | some i => l.take i :: pySplitFuel sep fuel (l.drop (i + sep.length))

/-- Python s.split(sep) for a nonempty separator. -/
def pySplit (sep l : List Char) : List (List Char) :=
  pySplitFuel sep l.length l

/-- Python s.strip(c): drop every leading and trailing occurrence of the
character c. -/
def pyStrip (c : Char) (l : List Char) : List Char :=
  ((l.dropWhile (fun a => a == c)).reverse.dropWhile (fun a => a == c)).reverse

/-- Python s.replace(old, new) for single characters. -/
def pyReplaceChar (old new : Char) (l : List Char) : List Char :=
  l.map (fun a => if a == old then new else a)

/-- Python (sep in s): substring containment as a boolean. -/
def pyContains (sep l : List Char) : Bool :=
  (findSub sep l).isSome

/-- Mathematical statement that needle occurs as a contiguous substring of
hay. -/
def SubstrOccurs (needle hay : List Char) : Prop :=
  ∃ pre post, hay = pre ++ needle ++ post

/-- Embedding of get_clean_slug: take the part after the last occurrence of
the marker, strip slashes at both ends, replace hyphens with spaces. -/
def get_clean_slug (url : String) : String :=
  let pieces := pySplit "/get-started/".toList url.toList
  let slug := pyStrip '/' (pieces.getLastD url.toList)
  String.mk (pyReplaceChar '-' ' ' slug)

/-- Embedding of the filter predicate of fetch_sitemap_urls: the URL must
contain the required path marker and none of the excluded language
markers. -/
def urlPasses (u : String) : Bool :=
  pyContains REQUIRED_PATH.toList u.toList &&
  !(EXCLUDED_LANGS.any (fun lang => pyContains lang.toList u.toList))

/-- Embedding of fetch_sitemap_urls.  The outcome of the network retrieval
and XML parse is an oracle: an error value models any exception raised
inside the try block, which the function turns into an empty list; a
success carries the list of loc entries of the sitemap in document
order. -/
def fetch_sitemap_urls (fetched : Except String (List String)) : List String :=
  match fetched with
  | Except.error _ => []
  | Except.ok locs => locs.filter urlPasses

/-- Checkpoint state: the JSON document persisted by the script.  The
processed slugs are an ordered list used through membership tests; the
failed slugs pair each slug with the error description recorded for it. -/
structure SaveState where
  processed_slugs : List String
  failed_slugs : List (String × String)
deriving DecidableEq

/-- Content of the checkpoint file as the loader finds it: absent (open
raises FileNotFoundError), present but unparseable (json.load raises a
decode error), or present and well formed. -/
inductive DiskFile where
  | absent : DiskFile
  | corrupt : DiskFile
  | wellFormed : SaveState → DiskFile
deriving DecidableEq

/-- Embedding of load_save_state.  The try block catches exactly
FileNotFoundError and returns the fresh empty state for it; any other
exception, in particular the JSON decode error raised on a corrupt file,
propagates to the caller and is modelled as the error variant. -/
def load_save_state : DiskFile → Except String SaveState
  | DiskFile.absent => Except.ok { processed_slugs := [], failed_slugs := [] }
  | DiskFile.corrupt => Except.error "json.decoder.JSONDecodeError"
  | DiskFile.wellFormed st => Except.ok st

/-- Machine state of one run: the in-memory checkpoint state and the
current content of the durable checkpoint file. -/
structure Machine where
  mem : SaveState
  durable : SaveState
deriving DecidableEq

/-- Embedding of save_state: rewrite the whole durable file from the
in-memory state. -/
def save_state (m : Machine) : Machine :=
  { mem := m.mem, durable := m.mem }

/-- Observable events of the batch loop: skipping an item, invoking the
image generator adapter, the recorded outcome, a checkpoint write, and the
rate-limiting sleep with its duration in seconds. -/
inductive Event where
  | skipped : String → Event
  | invoked : String → Event
  | succeeded : String → Event
  | failedEv : String → String → Event
  | saved : Event
  | slept : Nat → Event
deriving DecidableEq

/-- Update of the in-memory state after a generation attempt: on success
append the slug to the processed list, on failure append the slug together
with the error description to the failed list. -/
def apply_outcome (mem : SaveState) (slug : String) (r : Bool × String) : SaveState :=
  if r.fst = true then
    { mem with processed_slugs := mem.processed_slugs ++ [slug] }
  else
    { mem with failed_slugs := mem.failed_slugs ++ [(slug, r.snd)] }

/-- Trace event recording the outcome of a generation attempt. -/
def outcome_event (slug : String) (r : Bool × String) : Event :=
  if r.fst = true then Event.succeeded slug else Event.failedEv slug r.snd

/-- One iteration of the loop body of main for a single URL.  The gen
oracle gives the result of generate_icon for a slug.  Already-processed
slugs are skipped with no other action; otherwise the adapter is invoked,
the outcome is applied to the in-memory state, the whole state is written
to the durable file, and the rate-limiting sleep of two seconds runs. -/
def process_url (gen : String → Bool × String) (m : Machine) (url : String) :
    Machine × List Event :=
  let slug := get_clean_slug url
  if slug ∈ m.mem.processed_slugs then
    (m, [Event.skipped slug])
  else
    let r := gen slug
    let m2 := save_state { mem := apply_outcome m.mem slug r, durable := m.durable }
    (m2, [Event.invoked slug, outcome_event slug r, Event.saved, Event.slept 2])

/-- The loop of main over the fetched URL list, threading the machine state
and collecting the event trace. -/
def run_urls (gen : String → Bool × String) (m : Machine) :
    List String → Machine × List Event
  | [] => (m, [])
  | url :: rest =>
    let step := process_url gen m url
    let tail := run_urls gen step.fst rest
    (tail.fst, step.snd ++ tail.snd)

/-- One whole run of main given the loaded state d (the durable file starts
as the same document the state was loaded from): execute the loop and
report the final failure summary, which main prints from the in-memory
failed list at the end of the run. -/
def main_run (gen : String → Bool × String) (d : SaveState) (urls : List String) :
    Machine × List Event × List (String × String) :=
  let r := run_urls gen { mem := d, durable := d } urls
  (r.fst, r.snd, r.fst.mem.failed_slugs)

/-- Any number of consecutive runs of the script: each run loads its state
from the durable file left by the previous run, executes its URL list, and
leaves its own durable file behind.  The combined event trace is
returned. -/
def run_many (gen : String → Bool × String) (d : SaveState) :
    List (List String) → SaveState × List Event
  | [] => (d, [])
  | urls :: rest =>
    let r := run_urls gen { mem := d, durable := d } urls
    let tail := run_many gen r.fst.durable rest
    (tail.fst, r.snd ++ tail.snd)

/-- Number of successful-generation events for a given slug in a trace. -/
def succCount (s : String) : List Event → Nat
  | [] => 0
  | e :: rest => (if e = Event.succeeded s then 1 else 0) + succCount s rest

/-- Single quotation mark character, used verbatim inside the prompt. -/
def quoteChar : String := String.singleton (Char.ofNat 39)

/-- Embedding of the prompt string built by generate_icon, with the slug
spliced in between single quotation marks. -/
def icon_prompt (slug : String) : String :=
  "Create a 3D minimalist icon design featuring vibrant, floating tokens and bitcoin coins,representing digital finance and cryptocurrency. Include a dynamic composition of colorful elements. Subject should relate to "
  ++ quoteChar ++ slug ++ quoteChar
  ++ ". The icon should have a clean, modern style suitable for UI design."

/-- Deterministic artifact file name derived from the slug: spaces become
underscores and a constant suffix is appended. -/
def icon_filename (slug : String) : String :=
  String.mk (pyReplaceChar ' ' '_' slug.toList) ++ "_icon.png"

/-- Artifact path inside the output directory, as os.path.join builds it
for a relative directory. -/
def icon_filepath (slug : String) : String :=
  OUTPUT_DIR ++ "/" ++ icon_filename slug

/-- Oracles for the fallible sub-steps of generate_icon: the provider call
(prompt to image URL), the download (URL to raw bytes), the decode (bytes
to an in-memory image), the resize, and the save of the final image at a
path.  An error value models the exception text of the failing step. -/
structure AdapterEnv where
  create : String → Except String String
  download : String → Except String String
  decode : String → Except String String
  resize : String → Except String String
  save : String → String → Except String Unit

/-- Embedding of generate_icon: the try block runs the provider call,
download, decode, resize and save in order; the first exception is caught
by the handler, which returns false together with the printed form of the
exception; on full success it returns true with the artifact path. -/
def generate_icon (env : AdapterEnv) (slug : String) : Bool × String :=
  match env.create (icon_prompt slug) with
  | Except.error e => (false, e)
  | Except.ok image_url =>
    match env.download image_url with
    | Except.error e => (false, e)
    | Except.ok raw =>
      match env.decode raw with
      | Except.error e => (false, e)
      | Except.ok img =>
        match env.resize img with
        | Except.error e => (false, e)
        | Except.ok resized =>
          match env.save resized (icon_filepath slug) with
          | Except.error e => (false, e)
          | Except.ok _ => (true, icon_filepath slug)

/-- Statement that e is the error description of the first failing
sub-step of generate_icon for the given oracles and slug. -/
def IsStepError (env : AdapterEnv) (slug : String) (e : String) : Prop :=
  env.create (icon_prompt slug) = Except.error e
  ∨ (∃ u, env.create (icon_prompt slug) = Except.ok u ∧
      env.download u = Except.error e)
  ∨ (∃ u r, env.create (icon_prompt slug) = Except.ok u ∧
      env.download u = Except.ok r ∧ env.decode r = Except.error e)
  ∨ (∃ u r i, env.create (icon_prompt slug) = Except.ok u ∧
      env.download u = Except.ok r ∧ env.decode r = Except.ok i ∧
      env.resize i = Except.error e)
  ∨ (∃ u r i j, env.create (icon_prompt slug) = Except.ok u ∧
      env.download u = Except.ok r ∧ env.decode r = Except.ok i ∧
      env.resize i = Except.ok j ∧
      env.save j (icon_filepath slug) = Except.error e)

/-- Boolean prefix test agrees with the existential description of being a
prefix. -/
lemma isPrefixOf_iff_exists (n : List Char) :
    ∀ l : List Char, n.isPrefixOf l = true ↔ ∃ t, n ++ t = l := by
  induction n with
  | nil =>
    intro l
    simp [List.isPrefixOf]
  | cons a n ih =>
    intro l
    cases l with
    | nil => simp [List.isPrefixOf]
    | cons b l =>
      simp only [List.isPrefixOf, Bool.and_eq_true, beq_iff_eq, ih l]
      constructor
      · rintro ⟨rfl, t, rfl⟩
        exact ⟨t, rfl⟩
      · rintro ⟨t, h⟩
        injection h with h1 h2
        exact ⟨h1, t, h2⟩

/-- Occurrence in a cons cell: either right at the front or inside the
tail. -/
lemma substrOccurs_cons (n : List Char) (b : Char) (l : List Char) :
    SubstrOccurs n (b :: l) ↔ (∃ t, n ++ t = b :: l) ∨ SubstrOccurs n l := by
  constructor
  · rintro ⟨pre, post, h⟩
    cases pre with
    | nil =>
      left
      exact ⟨post, h.symm⟩
    | cons c pre =>
      injection h with h1 h2
      right
      exact ⟨pre, post, h2⟩
  · rintro (⟨t, h⟩ | ⟨pre, post, h⟩)
    · exact ⟨[], t, h.symm⟩
    · exact ⟨b :: pre, post, by simp [h]⟩

/-- The leftmost-occurrence search succeeds exactly when the pattern
occurs as a substring. -/
lemma findSub_isSome_iff (n : List Char) :
    ∀ l : List Char, (findSub n l).isSome = true ↔ SubstrOccurs n l := by
  intro l
  induction l with
  | nil =>
    cases n with
    | nil =>
      constructor
      · intro _
        exact ⟨[], [], rfl⟩
      · intro _
        rfl
    | cons a n =>
      constructor
      · intro h
        exact absurd h (by simp [findSub])
      · rintro ⟨pre, post, h⟩
        simp at h
  | cons b l ih =>
    by_cases h : n.isPrefixOf (b :: l) = true
    · constructor
      · intro _
        obtain ⟨t, ht⟩ := (isPrefixOf_iff_exists n (b :: l)).mp h
        exact ⟨[], t, ht.symm⟩
      · intro _
        simp [findSub, h]
    · have heq : findSub n (b :: l) = (findSub n l).map (fun i => i + 1) := by
        simp [findSub, h]
      have hiso : (findSub n (b :: l)).isSome = (findSub n l).isSome := by
        rw [heq]
        cases findSub n l <;> rfl
      rw [hiso, ih, substrOccurs_cons, ← isPrefixOf_iff_exists n (b :: l)]
      simp [h]

/-- The Python containment test agrees with substring occurrence. -/
lemma pyContains_iff (n l : List Char) :
    pyContains n l = true ↔ SubstrOccurs n l :=
  findSub_isSome_iff n l

/-- Negative form of the containment correspondence. -/
lemma pyContains_eq_false_iff (n l : List Char) :
    pyContains n l = false ↔ ¬ SubstrOccurs n l := by
  rw [← pyContains_iff]
  cases h : pyContains n l <;> simp

/-- When the separator never occurs, splitting leaves the list whole, for
any amount of fuel. -/
lemma pySplitFuel_of_none (sep : List Char) (fuel : Nat) (l : List Char)
    (h : findSub sep l = none) : pySplitFuel sep fuel l = [l] := by
  cases fuel with
  | zero => rfl
  | succ fuel => simp [pySplitFuel, h]

/-- When the separator never occurs, the Python split returns the whole
string as its only piece. -/
lemma pySplit_of_not_occurs (sep l : List Char) (h : ¬ SubstrOccurs sep l) :
    pySplit sep l = [l] := by
  apply pySplitFuel_of_none
  have hs : (findSub sep l).isSome = false := by
    rw [← pyContains_eq_false_iff] at h
    exact h
  cases hfs : findSub sep l with
  | none => rfl
  | some i => rw [hfs] at hs; simp at hs

/-- Spec-side statement of admissibility for a sitemap entry: it contains
the required path marker and none of the excluded language markers. -/
def UrlAdmissible (u : String) : Prop :=
  SubstrOccurs REQUIRED_PATH.toList u.toList ∧
  ∀ lang ∈ EXCLUDED_LANGS, ¬ SubstrOccurs lang.toList u.toList

/-- The boolean filter of the fetcher decides exactly admissibility. -/
lemma urlPasses_iff (u : String) : urlPasses u = true ↔ UrlAdmissible u := by
  unfold urlPasses UrlAdmissible
  simp only [Bool.and_eq_true, Bool.not_eq_true', List.any_eq_false, pyContains_iff,
    pyContains_eq_false_iff]

lemma run_urls_nil (gen : String → Bool × String) (m : Machine) :
    run_urls gen m [] = (m, []) := rfl

lemma run_urls_cons (gen : String → Bool × String) (m : Machine) (u : String)
    (rest : List String) :
    run_urls gen m (u :: rest) =
      ((run_urls gen (process_url gen m u).fst rest).fst,
       (process_url gen m u).snd ++ (run_urls gen (process_url gen m u).fst rest).snd) :=
  rfl

lemma run_many_nil (gen : String → Bool × String) (d : SaveState) :
    run_many gen d [] = (d, []) := rfl

lemma run_many_cons (gen : String → Bool × String) (d : SaveState) (us : List String)
    (rest : List (List String)) :
    run_many gen d (us :: rest) =
      ((run_many gen (run_urls gen { mem := d, durable := d } us).fst.durable rest).fst,
       (run_urls gen { mem := d, durable := d } us).snd ++
         (run_many gen (run_urls gen { mem := d, durable := d } us).fst.durable rest).snd) :=
  rfl

lemma succCount_append (s : String) (t1 t2 : List Event) :
    succCount s (t1 ++ t2) = succCount s t1 + succCount s t2 := by
  induction t1 with
  | nil => simp [succCount]
  | cons e t1 ih => simp [succCount, ih, Nat.add_assoc]

lemma succCount_pos_mem (s : String) :
    ∀ tr : List Event, succCount s tr ≠ 0 → Event.succeeded s ∈ tr := by
  intro tr
  induction tr with
  | nil => intro h; exact absurd rfl h
  | cons e tr ih =>
    intro h
    by_cases he : e = Event.succeeded s
    · rw [he]
      exact List.mem_cons_self _ _
    · right
      apply ih
      simpa [succCount, he] using h

lemma mem_apply_outcome (mem : SaveState) (slug : String) (r : Bool × String)
    (s : String) :
    s ∈ (apply_outcome mem slug r).processed_slugs ↔
      s ∈ mem.processed_slugs ∨ (r.fst = true ∧ s = slug) := by
  unfold apply_outcome
  cases hr : r.fst <;> simp [hr]

lemma apply_outcome_failed (mem : SaveState) (slug : String) (r : Bool × String)
    (h : r.fst = false) :
    (apply_outcome mem slug r).failed_slugs = mem.failed_slugs ++ [(slug, r.snd)] ∧
    (apply_outcome mem slug r).processed_slugs = mem.processed_slugs := by
  simp [apply_outcome, h]

lemma apply_outcome_nodup (mem : SaveState) (slug : String) (r : Bool × String)
    (h : mem.processed_slugs.Nodup) (hn : slug ∉ mem.processed_slugs) :
    (apply_outcome mem slug r).processed_slugs.Nodup := by
  unfold apply_outcome
  cases hr : r.fst
  · simpa using h
  · simp only []
    refine List.Nodup.append h (List.nodup_singleton slug) ?_
    intro a ha hb
    simp at hb
    rw [hb] at ha
    exact hn ha

lemma process_url_skip (gen : String → Bool × String) (m : Machine) (url : String)
    (h : get_clean_slug url ∈ m.mem.processed_slugs) :
    process_url gen m url = (m, [Event.skipped (get_clean_slug url)]) := by
  simp [process_url, h]

lemma process_url_attempt (gen : String → Bool × String) (m : Machine) (url : String)
    (h : get_clean_slug url ∉ m.mem.processed_slugs) :
    process_url gen m url =
      ({ mem := apply_outcome m.mem (get_clean_slug url) (gen (get_clean_slug url)),
         durable := apply_outcome m.mem (get_clean_slug url) (gen (get_clean_slug url)) },
       [Event.invoked (get_clean_slug url),
        outcome_event (get_clean_slug url) (gen (get_clean_slug url)),
        Event.saved, Event.slept 2]) := by
  simp [process_url, h, save_state]

lemma process_url_durable (gen : String → Bool × String) (m : Machine) (url : String)
    (h : m.durable = m.mem) :
    (process_url gen m url).fst.durable = (process_url gen m url).fst.mem := by
  by_cases hm : get_clean_slug url ∈ m.mem.processed_slugs
  · rw [process_url_skip gen m url hm]
    exact h
  · rw [process_url_attempt gen m url hm]

lemma run_urls_durable (gen : String → Bool × String) :
    ∀ (urls : List String) (m : Machine), m.durable = m.mem →
      (run_urls gen m urls).fst.durable = (run_urls gen m urls).fst.mem := by
  intro urls
  induction urls with
  | nil =>
    intro m h
    simpa [run_urls_nil] using h
  | cons u rest ih =>
    intro m h
    rw [run_urls_cons]
    exact ih (process_url gen m u).fst (process_url_durable gen m u h)

lemma succeeded_eq_outcome_iff (s t : String) (r : Bool × String) :
    outcome_event t r = Event.succeeded s ↔ (r.fst = true ∧ t = s) := by
  unfold outcome_event
  cases hr : r.fst <;> simp [hr, eq_comm]

lemma run_mem_processed (gen : String → Bool × String) :
    ∀ (urls : List String) (m : Machine) (s : String),
      s ∈ (run_urls gen m urls).fst.mem.processed_slugs ↔
        s ∈ m.mem.processed_slugs ∨ Event.succeeded s ∈ (run_urls gen m urls).snd := by
  intro urls
  induction urls with
  | nil =>
    intro m s
    simp [run_urls_nil]
  | cons u rest ih =>
    intro m s
    rw [run_urls_cons]
    by_cases hm : get_clean_slug u ∈ m.mem.processed_slugs
    · rw [process_url_skip gen m u hm]
      simp only [List.cons_append, List.nil_append, List.mem_cons, ih]
      constructor
      · rintro (h | h)
        · exact Or.inl h
        · exact Or.inr (Or.inr h)
      · rintro (h | h | h)
        · exact Or.inl h
        · exact absurd h (by simp)
        · exact Or.inr h
    · rw [process_url_attempt gen m u hm]
      simp only [ih, mem_apply_outcome, List.cons_append, List.nil_append, List.mem_cons]
      have hout := succeeded_eq_outcome_iff s (get_clean_slug u) (gen (get_clean_slug u))
      constructor
      · rintro ((h | h) | h)
        · exact Or.inl h
        · exact Or.inr (Or.inr (Or.inl (hout.mpr ⟨h.1, h.2.symm⟩).symm))
        · exact Or.inr (Or.inr (Or.inr (Or.inr (Or.inr h))))
      · rintro (h | h | h | h | h | h)
        · exact Or.inl (Or.inl h)
        · exact absurd h (by simp)
        · exact Or.inl (Or.inr (by have := hout.mp h.symm; exact ⟨this.1, this.2.symm⟩))
        · exact absurd h (by simp)
        · exact absurd h (by simp)
        · exact Or.inr h

lemma succCount_front (s t : String) (r : Bool × String) :
    succCount s [Event.invoked t, outcome_event t r, Event.saved, Event.slept 2] =
      if (r.fst = true ∧ t = s) then 1 else 0 := by
  cases hr : r.fst <;> by_cases hts : t = s <;>
    simp [succCount, outcome_event, hr, hts]

lemma run_succCount_le (gen : String → Bool × String) :
    ∀ (urls : List String) (m : Machine) (s : String),
      succCount s (run_urls gen m urls).snd ≤
        (if s ∈ m.mem.processed_slugs then 0 else 1) := by
  intro urls
  induction urls with
  | nil =>
    intro m s
    simp [run_urls_nil, succCount]
  | cons u rest ih =>
    intro m s
    rw [run_urls_cons]
    by_cases hm : get_clean_slug u ∈ m.mem.processed_slugs
    · rw [process_url_skip gen m u hm]
      simpa [succCount_append, succCount] using ih m s
    · rw [process_url_attempt gen m u hm]
      simp only [succCount_append, succCount_front]
      set t := get_clean_slug u with ht
      set r := gen t with hrdef
      have ihtail := ih
        ({ mem := apply_outcome m.mem t r, durable := apply_outcome m.mem t r }) s
      by_cases hs : s ∈ m.mem.processed_slugs
      · have hts : ¬ (r.fst = true ∧ t = s) := by
          rintro ⟨-, rfl⟩
          exact hm hs
        have hmem : s ∈ (apply_outcome m.mem t r).processed_slugs :=
          (mem_apply_outcome m.mem t r s).mpr (Or.inl hs)
        simp only [if_neg hts, if_pos hs, if_pos hmem] at *
        omega
      · by_cases hcond : r.fst = true ∧ t = s
        · have hmem : s ∈ (apply_outcome m.mem t r).processed_slugs :=
            (mem_apply_outcome m.mem t r s).mpr (Or.inr ⟨hcond.1, hcond.2.symm⟩)
          rw [if_pos hcond, if_neg hs]
          rw [if_pos hmem] at ihtail
          omega
        · rw [if_neg hcond, if_neg hs]
          have hle : succCount s (run_urls gen
              ({ mem := apply_outcome m.mem t r, durable := apply_outcome m.mem t r }) rest).snd ≤ 1 := by
            refine le_trans ihtail ?_
            split <;> omega
          omega

lemma run_nodup (gen : String → Bool × String) :
    ∀ (urls : List String) (m : Machine), m.mem.processed_slugs.Nodup →
      (run_urls gen m urls).fst.mem.processed_slugs.Nodup := by
  intro urls
  induction urls with
  | nil =>
    intro m h
    simpa [run_urls_nil] using h
  | cons u rest ih =>
    intro m h
    rw [run_urls_cons]
    by_cases hm : get_clean_slug u ∈ m.mem.processed_slugs
    · rw [process_url_skip gen m u hm]
      exact ih m h
    · rw [process_url_attempt gen m u hm]
      exact ih _ (apply_outcome_nodup m.mem _ _ h hm)

lemma process_url_skip_iff (gen : String → Bool × String) (m : Machine) (url : String) :
    (process_url gen m url).snd = [Event.skipped (get_clean_slug url)] ↔
      get_clean_slug url ∈ m.mem.processed_slugs := by
  by_cases hm : get_clean_slug url ∈ m.mem.processed_slugs
  · simp [process_url_skip gen m url hm, hm]
  · rw [process_url_attempt gen m url hm]
    simp [hm]

lemma run_many_count (gen : String → Bool × String) :
    ∀ (uss : List (List String)) (d : SaveState) (s : String),
      (s ∈ d.processed_slugs → succCount s (run_many gen d uss).snd = 0) ∧
      succCount s (run_many gen d uss).snd ≤ 1 := by
  intro uss
  induction uss with
  | nil =>
    intro d s
    exact ⟨fun _ => rfl, by simp [run_many_nil, succCount]⟩
  | cons us rest ih =>
    intro d s
    rw [run_many_cons]
    simp only [succCount_append]
    have hdur : (run_urls gen { mem := d, durable := d } us).fst.durable
        = (run_urls gen { mem := d, durable := d } us).fst.mem :=
      run_urls_durable gen us { mem := d, durable := d } rfl
    have hrun := run_succCount_le gen us { mem := d, durable := d } s
    constructor
    · intro hd
      have h1 : succCount s (run_urls gen { mem := d, durable := d } us).snd = 0 := by
        rw [if_pos hd] at hrun
        omega
      have hmem : s ∈ (run_urls gen { mem := d, durable := d } us).fst.durable.processed_slugs := by
        rw [hdur]
        exact (run_mem_processed gen us { mem := d, durable := d } s).mpr (Or.inl hd)
      have h2 := (ih (run_urls gen { mem := d, durable := d } us).fst.durable s).1 hmem
      omega
    · by_cases hd : s ∈ d.processed_slugs
      · have h1 : succCount s (run_urls gen { mem := d, durable := d } us).snd = 0 := by
          rw [if_pos hd] at hrun
          omega
        have hmem : s ∈ (run_urls gen { mem := d, durable := d } us).fst.durable.processed_slugs := by
          rw [hdur]
          exact (run_mem_processed gen us { mem := d, durable := d } s).mpr (Or.inl hd)
        have h2 := (ih (run_urls gen { mem := d, durable := d } us).fst.durable s).1 hmem
        omega
      · rw [if_neg hd] at hrun
        by_cases hz : succCount s (run_urls gen { mem := d, durable := d } us).snd = 0
        · have h2 := (ih (run_urls gen { mem := d, durable := d } us).fst.durable s).2
          omega
        · have hmemtr : Event.succeeded s ∈ (run_urls gen { mem := d, durable := d } us).snd :=
            succCount_pos_mem s _ hz
          have hmem : s ∈ (run_urls gen { mem := d, durable := d } us).fst.durable.processed_slugs := by
            rw [hdur]
            exact (run_mem_processed gen us { mem := d, durable := d } s).mpr (Or.inr hmemtr)
          have h2 := (ih (run_urls gen { mem := d, durable := d } us).fst.durable s).1 hmem
          omega

lemma run_many_nodup (gen : String → Bool × String) :
    ∀ (uss : List (List String)) (d : SaveState), d.processed_slugs.Nodup →
      (run_many gen d uss).fst.processed_slugs.Nodup := by
  intro uss
  induction uss with
  | nil =>
    intro d h
    simpa [run_many_nil] using h
  | cons us rest ih =>
    intro d h
    rw [run_many_cons]
    apply ih
    rw [run_urls_durable gen us { mem := d, durable := d } rfl]
    exact run_nodup gen us { mem := d, durable := d } h

/-- Hyphen replacement leaves no occurrence of the replaced character when
the replacement differs from it. -/
lemma pyReplaceChar_no_old (old new : Char) (l : List Char) (hne : new ≠ old) :
    ∀ c ∈ pyReplaceChar old new l, c ≠ old := by
  intro c hc
  unfold pyReplaceChar at hc
  obtain ⟨a, ha, rfl⟩ := List.mem_map.mp hc
  by_cases h : (a == old) = true
  · rw [if_pos h]
    exact hne
  · rw [if_neg h]
    intro heq
    apply h
    rw [heq]
    exact beq_self_eq_true old

/-- Fixture: adapter oracle that always succeeds. -/
def genAllOk : String → Bool × String := fun s => (true, icon_filepath s)

/-- Fixture: adapter oracle that always fails with a fixed message. -/
def genAllFail : String → Bool × String := fun _ => (false, "boom")

/-- Fixture: fresh empty checkpoint state. -/
def stFreshEx : SaveState := { processed_slugs := [], failed_slugs := [] }

/-- Fixture: checkpoint state with slug a already processed. -/
def stDoneA : SaveState := { processed_slugs := ["a"], failed_slugs := [] }

/-- Fixture: checkpoint state with slug c already processed. -/
def stDoneC : SaveState := { processed_slugs := ["c"], failed_slugs := [] }

/-- Fixture: checkpoint state carrying one recorded failure. -/
def stFailX : SaveState := { processed_slugs := [], failed_slugs := [("x", "boom")] }

/-- Fixture machines built from the fixture states. -/
def mFresh : Machine := { mem := stFreshEx, durable := stFreshEx }

/-- Fixture machine with slug a already processed. -/
def mDoneA : Machine := { mem := stDoneA, durable := stDoneA }

/-- Fixture machine with slug c already processed. -/
def mDoneC : Machine := { mem := stDoneC, durable := stDoneC }

/-- Fixture: a small catalog with one admissible entry, one entry missing
the marker, and one entry in an excluded language. -/
def urls0 : List String :=
  ["https://x/get-started/a/", "https://x/other/", "https://x/de/get-started/b/"]

/-- C1: for every slug already in the processed set at the start of an
iteration, the loop body returns the machine unchanged with a single skip
event, so the adapter is not invoked and the checkpoint is untouched; and
across any number of runs the processed list stays duplicate-free and each
slug generates at most one successful-processing event. -/
theorem C1_idempotent_skip (gen : String → Bool × String) (m : Machine) (url : String)
    (d : SaveState) (uss : List (List String)) (s : String) :
    (get_clean_slug url ∈ m.mem.processed_slugs →
      process_url gen m url = (m, [Event.skipped (get_clean_slug url)])) ∧
    (d.processed_slugs.Nodup → (run_many gen d uss).fst.processed_slugs.Nodup) ∧
    succCount s (run_many gen d uss).snd ≤ 1 :=
  ⟨process_url_skip gen m url, run_many_nodup gen uss d, (run_many_count gen uss d s).2⟩

/-- Witness for C1 at concrete inputs: the machine that has already
processed slug a skips it, and a concrete two-run history keeps the
processed list duplicate-free. -/
theorem C1_witness :
    process_url genAllOk mDoneA "https://x/get-started/a/" =
      (mDoneA, [Event.skipped (get_clean_slug "https://x/get-started/a/")]) ∧
    (run_many genAllOk stDoneA
      [["https://x/get-started/b/"], ["https://x/get-started/b/"]]).fst.processed_slugs.Nodup :=
  ⟨(C1_idempotent_skip genAllOk mDoneA "https://x/get-started/a/" stDoneA
      [["https://x/get-started/b/"], ["https://x/get-started/b/"]] "a").1 (by decide),
   (C1_idempotent_skip genAllOk mDoneA "https://x/get-started/a/" stDoneA
      [["https://x/get-started/b/"], ["https://x/get-started/b/"]] "a").2.1 (by decide)⟩

/-- C2: the durable checkpoint equals the in-memory state at every
between-item boundary of a run over any prefix of the catalog; the durable
processed set then holds exactly the initially processed slugs plus those
with a successful-generation event in the prefix; and a fresh run started
from that durable state skips a URL exactly when its slug is in that
durable processed set. -/
theorem C2_checkpoint_durability (gen : String → Bool × String) (d : SaveState)
    (urls : List String) (n : Nat) (s : String) (url : String) :
    (run_urls gen { mem := d, durable := d } (urls.take n)).fst.durable =
      (run_urls gen { mem := d, durable := d } (urls.take n)).fst.mem ∧
    (s ∈ (run_urls gen { mem := d, durable := d } (urls.take n)).fst.durable.processed_slugs ↔
      s ∈ d.processed_slugs ∨
        Event.succeeded s ∈ (run_urls gen { mem := d, durable := d } (urls.take n)).snd) ∧
    ((process_url gen
        { mem := (run_urls gen { mem := d, durable := d } (urls.take n)).fst.durable,
          durable := (run_urls gen { mem := d, durable := d } (urls.take n)).fst.durable }
        url).snd = [Event.skipped (get_clean_slug url)] ↔
      get_clean_slug url ∈
        (run_urls gen { mem := d, durable := d } (urls.take n)).fst.durable.processed_slugs) := by
  have hdur := run_urls_durable gen (urls.take n) { mem := d, durable := d } rfl
  refine ⟨hdur, ?_, ?_⟩
  · rw [hdur]
    exact run_mem_processed gen (urls.take n) { mem := d, durable := d } s
  · exact process_url_skip_iff gen _ url

/-- Counterexample for C3: on a corrupt checkpoint file the loader does not
return the fresh empty state; the decode exception propagates instead. -/
theorem C3_counterexample :
    load_save_state DiskFile.corrupt ≠
      Except.ok { processed_slugs := [], failed_slugs := [] } ∧
    load_save_state DiskFile.corrupt = Except.error "json.decoder.JSONDecodeError" :=
  ⟨fun h => by simp [load_save_state] at h, rfl⟩

/-- C3 amended: the loader returns a fresh empty state when the file is
absent and the parsed state when it is well formed, but a corrupt file
raises and fails the run, because only the file-not-found exception is
caught. -/
theorem C3_load_behavior :
    load_save_state DiskFile.absent =
      Except.ok { processed_slugs := [], failed_slugs := [] } ∧
    (∀ st : SaveState, load_save_state (DiskFile.wellFormed st) = Except.ok st) ∧
    load_save_state DiskFile.corrupt = Except.error "json.decoder.JSONDecodeError" :=
  ⟨rfl, fun _ => rfl, rfl⟩

/-- C4: when the adapter fails on a non-skipped item, the slug is appended
to the failed list together with the error description, the processed set
is unchanged, and the run on the remaining items proceeds exactly as a run
from the updated state, so no per-item failure aborts the batch. -/
theorem C4_failure_isolation (gen : String → Bool × String) (m : Machine) (url : String)
    (rest : List String)
    (h1 : get_clean_slug url ∉ m.mem.processed_slugs)
    (h2 : (gen (get_clean_slug url)).fst = false) :
    (process_url gen m url).fst.mem.failed_slugs =
      m.mem.failed_slugs ++ [(get_clean_slug url, (gen (get_clean_slug url)).snd)] ∧
    (process_url gen m url).fst.mem.processed_slugs = m.mem.processed_slugs ∧
    run_urls gen m (url :: rest) =
      ((run_urls gen (process_url gen m url).fst rest).fst,
       (process_url gen m url).snd ++ (run_urls gen (process_url gen m url).fst rest).snd) := by
  have ha := process_url_attempt gen m url h1
  refine ⟨?_, ?_, run_urls_cons gen m url rest⟩
  · rw [ha]
    exact (apply_outcome_failed m.mem _ _ h2).1
  · rw [ha]
    exact (apply_outcome_failed m.mem _ _ h2).2

/-- Witness for C4 at concrete inputs: a failing generation appends the
slug and error to the failed list. -/
theorem C4_witness :
    (process_url genAllFail mFresh "https://x/get-started/a-b/").fst.mem.failed_slugs =
      mFresh.mem.failed_slugs ++
        [(get_clean_slug "https://x/get-started/a-b/",
          (genAllFail (get_clean_slug "https://x/get-started/a-b/")).snd)] :=
  (C4_failure_isolation genAllFail mFresh "https://x/get-started/a-b/"
    ["https://x/get-started/c/"] (by decide) (by decide)).1

/-- C5: generate_icon is a total function of its oracles: it either reports
success with the deterministic artifact path, or reports failure carrying
the error description of the first failing sub-step (provider call,
download, decode, resize or save); no exception escapes the adapter. -/
theorem C5_adapter_total (env : AdapterEnv) (slug : String) :
    generate_icon env slug = (true, icon_filepath slug) ∨
    ∃ e, generate_icon env slug = (false, e) ∧ IsStepError env slug e := by
  unfold generate_icon
  cases hc : env.create (icon_prompt slug) with
  | error e =>
    exact Or.inr ⟨e, rfl, Or.inl hc⟩
  | ok u =>
    dsimp only
    cases hd : env.download u with
    | error e =>
      exact Or.inr ⟨e, rfl, Or.inr (Or.inl ⟨u, hc, hd⟩)⟩
    | ok raw =>
      dsimp only
      cases hde : env.decode raw with
      | error e =>
        exact Or.inr ⟨e, rfl, Or.inr (Or.inr (Or.inl ⟨u, raw, hc, hd, hde⟩))⟩
      | ok img =>
        dsimp only
        cases hre : env.resize img with
        | error e =>
          exact Or.inr ⟨e, rfl,
            Or.inr (Or.inr (Or.inr (Or.inl ⟨u, raw, img, hc, hd, hde, hre⟩)))⟩
        | ok rimg =>
          dsimp only
          cases hsv : env.save rimg (icon_filepath slug) with
          | error e =>
            exact Or.inr ⟨e, rfl,
              Or.inr (Or.inr (Or.inr (Or.inr ⟨u, raw, img, rimg, hc, hd, hde, hre, hsv⟩)))⟩
          | ok _ =>
            exact Or.inl rfl

/-- C6: the fetcher returns the subsequence of the catalog consisting
exactly of the entries containing the required marker and none of the
excluded markers, in the original order, and returns the empty sequence on
any retrieval or parse failure. -/
theorem C6_filter_correct (fetched : Except String (List String)) :
    (∀ e, fetched = Except.error e → fetch_sitemap_urls fetched = []) ∧
    (∀ ls, fetched = Except.ok ls →
      List.Sublist (fetch_sitemap_urls fetched) ls ∧
      ∀ u, u ∈ fetch_sitemap_urls fetched ↔ u ∈ ls ∧ UrlAdmissible u) := by
  refine ⟨?_, ?_⟩
  · intro e he
    rw [he]
    rfl
  · intro ls hls
    rw [hls]
    refine ⟨List.filter_sublist ls, ?_⟩
    intro u
    rw [show fetch_sitemap_urls (Except.ok ls) = ls.filter urlPasses from rfl]
    rw [List.mem_filter, urlPasses_iff]

/-- Witness for C6 at concrete inputs: the admissible entry of the fixture
catalog is kept and a failed fetch yields the empty sequence. -/
theorem C6_witness :
    "https://x/get-started/a/" ∈ fetch_sitemap_urls (Except.ok urls0) ∧
    fetch_sitemap_urls (Except.error "boom") = [] :=
  ⟨(((C6_filter_correct (Except.ok urls0)).2 urls0 rfl).2
      "https://x/get-started/a/").mpr ⟨by decide, (urlPasses_iff _).mp (by decide)⟩,
   (C6_filter_correct (Except.error "boom")).1 "boom" rfl⟩

/-- Counterexample for C7: with an empty catalog the run terminates without
touching the checkpoint, but the failure summary is not empty when the
loaded checkpoint already records failures, since main prints the whole
in-memory failed list. -/
theorem C7_counterexample :
    fetch_sitemap_urls (Except.error "fetch failed") = [] ∧
    (main_run genAllFail stFailX
      (fetch_sitemap_urls (Except.error "fetch failed"))).snd.snd ≠ [] := by
  refine ⟨rfl, ?_⟩
  decide

/-- C7 amended: with an empty candidate sequence the run terminates cleanly
with no events at all, so the checkpoint is neither mutated nor persisted,
and the failure summary lists exactly the failures already recorded in the
loaded state, hence is empty exactly when no prior failures exist. -/
theorem C7_empty_catalog (gen : String → Bool × String) (d : SaveState) :
    (main_run gen d []).fst = { mem := d, durable := d } ∧
    (main_run gen d []).snd.fst = [] ∧
    (main_run gen d []).snd.snd = d.failed_slugs ∧
    (d.failed_slugs = [] → (main_run gen d []).snd.snd = []) := by
  refine ⟨rfl, rfl, rfl, fun h => ?_⟩
  rw [show (main_run gen d []).snd.snd = d.failed_slugs from rfl, h]

/-- Witness for C7 at concrete inputs: an empty catalog over a fresh state
yields an empty summary. -/
theorem C7_witness :
    (main_run genAllOk stFreshEx []).snd.snd = [] :=
  (C7_empty_catalog genAllOk stFreshEx).2.2.2 rfl

/-- C8: slug derivation is a pure function of the identifier and at the
given example strips the path prefix, trims separators at both ends and
turns hyphens into spaces; moreover no hyphen ever survives in any derived
slug. -/
theorem C8_slug_derivation :
    get_clean_slug "https://x/get-started/Some-Thing/" = "Some Thing" ∧
    get_clean_slug "https://x/get-started//Lead-Slash//" = "Lead Slash" ∧
    (∀ u v : String, u = v → get_clean_slug u = get_clean_slug v) ∧
    (∀ u : String, ∀ c ∈ (get_clean_slug u).toList, c ≠ '-') := by
  refine ⟨by decide, by decide, fun u v h => h ▸ rfl, fun u => ?_⟩
  exact pyReplaceChar_no_old '-' ' ' _ (by decide)

/-- Witness for C8 at concrete inputs. -/
theorem C8_witness :
    get_clean_slug "https://x/get-started/x-y/" = get_clean_slug "https://x/get-started/x-y/" ∧
    ('x' : Char) ≠ '-' :=
  ⟨C8_slug_derivation.2.2.1 "https://x/get-started/x-y/" "https://x/get-started/x-y/" rfl,
   C8_slug_derivation.2.2.2 "https://x/get-started/x-y/" 'x' (by decide)⟩

/-- C9: a skipped item leaves the machine untouched and produces only the
skip event, in particular no checkpoint write and no sleep; every attempted
item, successful or failed, produces the adapter invocation, the outcome
event, the checkpoint write, and then the fixed two-second sleep before the
next candidate. -/
theorem C9_delay_discipline (gen : String → Bool × String) (m : Machine) (url : String) :
    (get_clean_slug url ∈ m.mem.processed_slugs →
      process_url gen m url = (m, [Event.skipped (get_clean_slug url)])) ∧
    (get_clean_slug url ∉ m.mem.processed_slugs →
      (process_url gen m url).snd =
        [Event.invoked (get_clean_slug url),
         outcome_event (get_clean_slug url) (gen (get_clean_slug url)),
         Event.saved, Event.slept 2]) := by
  refine ⟨process_url_skip gen m url, fun h => ?_⟩
  rw [process_url_attempt gen m url h]

/-- Witness for C9 at concrete inputs: a processed slug is skipped with a
single event, an unprocessed one is attempted and followed by the sleep. -/
theorem C9_witness :
    process_url genAllOk mDoneC "https://x/get-started/c/" =
      (mDoneC, [Event.skipped (get_clean_slug "https://x/get-started/c/")]) ∧
    (process_url genAllOk mFresh "https://x/get-started/b/").snd =
      [Event.invoked (get_clean_slug "https://x/get-started/b/"),
       outcome_event (get_clean_slug "https://x/get-started/b/")
         (genAllOk (get_clean_slug "https://x/get-started/b/")),
       Event.saved, Event.slept 2] :=
  ⟨(C9_delay_discipline genAllOk mDoneC "https://x/get-started/c/").1 (by decide),
   (C9_delay_discipline genAllOk mFresh "https://x/get-started/b/").2 (by decide)⟩

/-- C10: slug derivation is total; on an identifier that does not contain
the required path marker it returns the whole identifier with leading and
trailing slashes stripped and hyphens replaced by spaces. -/
theorem C10_slug_total (url : String)
    (h : ¬ SubstrOccurs "/get-started/".toList url.toList) :
    get_clean_slug url =
      String.mk (pyReplaceChar '-' ' ' (pyStrip '/' url.toList)) := by
  show String.mk (pyReplaceChar '-' ' '
      (pyStrip '/' ((pySplit "/get-started/".toList url.toList).getLastD url.toList))) = _
  rw [pySplit_of_not_occurs _ _ h]
  rfl

/-- Witness for C10 at a concrete marker-free identifier. -/
theorem C10_witness :
    get_clean_slug "https://y/foo-bar/" =
      String.mk (pyReplaceChar '-' ' ' (pyStrip '/' "https://y/foo-bar/".toList)) :=
  C10_slug_total "https://y/foo-bar/" ((pyContains_eq_false_iff _ _).mp (by decide))

